import Mathlib

/-!
# Verification of the vulnerability-tracking pipeline (`src/main.py`)

Shallow embedding of the dependency-ingestion and vulnerability-enrichment
pipeline of `main.py`: manifest parsing (`parse_requirements`), the
cache-or-oracle dependency resolution (`fetch_vulnerabilities`), the
registries (`applications`, `all_dependencies`, `cache`) and the read-side
aggregation endpoints (`get_applications`, `get_app_dependencies`,
`get_dependency_details`).

Modelling conventions:
* A vulnerability object is opaque to the pipeline (an unconstrained JSON
  record from the oracle); it is embedded as an opaque atom `Vuln := Nat`.
* Python dicts that are used as keyed stores (`applications`,
  `all_dependencies`) are embedded as association lists with dict
  insertion semantics (overwrite in place, append if absent).
* The `cachetools.TTLCache` is embedded as a list of entries carrying an
  absolute expiry instant (`insertion time + 86400`); membership checks
  compare against the current time, mutation prunes expired entries, and
  capacity eviction / expiry-time pruning is modelled by an explicit
  eviction step in the reachability relation (eviction only ever removes
  cache entries).
* The outcome of one outbound `httpx` POST is a value of `OracleOutcome`:
  a response with a status code and an optional `vulns` body field, or a
  network-level error (the `httpx.RequestError` caught by the code).
* Exceptions visible to the caller (`HTTPException(404)`, the uncaught
  `KeyError` from `is_dep_vulnerable`) are embedded as `Except ApiError`.
-/

/-- Opaque vulnerability object (an unconstrained record from the oracle). -/
abbrev Vuln := Nat

/-- A `(name, version)` identity pair — the `key = (name, version)` tuples
of `main.py`. -/
abbrev DepKey := String × String

/-- One parsed manifest line: the `{'name': ..., 'version': ...}` dicts
produced by `parse_requirements`. -/
structure ReqDep where
  name : String
  version : String
deriving DecidableEq

/-- A dependency record `{'name': ..., 'version': ..., 'vulnerabilities': ...}`
as stored in `all_dependencies` and in an application's dependency list. -/
structure DepRecord where
  name : String
  version : String
  vulnerabilities : List Vuln
deriving DecidableEq

/-- An application record as stored in `applications`
(`{'id': ..., 'name': ..., 'description': ..., 'dependencies': ...}`). -/
structure AppRecord where
  id : String
  name : String
  description : String
  dependencies : List DepRecord
deriving DecidableEq

/-- One entry of the TTL cache: key, value, and absolute expiry instant. -/
structure CacheEntry where
  key : DepKey
  value : List Vuln
  expiry : Nat
deriving DecidableEq

/-- The process-wide mutable state of `main.py`: the Application Registry
`applications`, the Dependency Registry `all_dependencies`, and the TTL
`cache`. -/
structure St where
  applications : List (String × AppRecord)
  all_dependencies : List (DepKey × DepRecord)
  cache : List CacheEntry
deriving DecidableEq

/-- The empty startup state (all three stores empty). -/
def initSt : St := ⟨[], [], []⟩

/-! ## Association-list embedding of Python dicts -/

/-- Dict lookup: `d.get(k)` / `d[k]`, as an association-list scan. -/
def alookup {α β : Type} [DecidableEq α] : List (α × β) → α → Option β
  | [], _ => none
  | p :: rest, k => if p.1 = k then some p.2 else alookup rest k

/-- Dict store `d[k] = v`: overwrite in place if the key is present,
append otherwise (Python dicts keep insertion order on overwrite). -/
def ainsert {α β : Type} [DecidableEq α] (l : List (α × β)) (k : α) (v : β) :
    List (α × β) :=
  match l with
  | [] => [(k, v)]
  | (k', v') :: rest => if k' = k then (k, v) :: rest else (k', v') :: ainsert rest k v

/-! ## Manifest parser (`parse_requirements`, main.py lines 38–56) -/

/-- Python whitespace as stripped by `str.strip()`. -/
def pyWhitespace (c : Char) : Bool :=
  c = ' ' || c = '\t' || c = '\n' || c = '\r' || c = '\x0b' || c = '\x0c'

/-- `str.strip()`: drop leading and trailing whitespace characters. -/
def pstrip (cs : List Char) : List Char :=
  ((cs.dropWhile pyWhitespace).reverse.dropWhile pyWhitespace).reverse

/-- `str.splitlines` restricted to the `\n`, `\r\n` and `\r` line
terminators (a trailing terminator produces no extra empty line). -/
def splitlinesAux : List Char → List Char → List (List Char)
  | [], [] => []
  | [], acc => [acc.reverse]
  | '\r' :: '\n' :: rest, acc => acc.reverse :: splitlinesAux rest []
  | '\n' :: rest, acc => acc.reverse :: splitlinesAux rest []
  | '\r' :: rest, acc => acc.reverse :: splitlinesAux rest []
  | c :: rest, acc => splitlinesAux rest (c :: acc)

/-- `re.split(r'==|>=|<=|>|<', line, 1)`: scan left to right; at each
position try the alternatives `==`, `>=`, `<=`, `>`, `<` in that order;
the first (leftmost) match splits the line into the part before and the
part after the operator. `none` when no operator occurs. -/
def splitOnOp : List Char → Option (List Char × List Char)
  | [] => none
  | '=' :: '=' :: rest => some ([], rest)
  | '>' :: '=' :: rest => some ([], rest)
  | '<' :: '=' :: rest => some ([], rest)
  | '>' :: rest => some ([], rest)
  | '<' :: rest => some ([], rest)
  | c :: rest => (splitOnOp rest).map (fun p => (c :: p.1, p.2))

/-- One iteration of the `parse_requirements` loop body: strip the line,
drop it if empty or a comment, otherwise split on the first version
operator; the part before (stripped) is the name, the part after
(stripped) is the version, defaulting to `"Unknown"` when no operator
occurs. -/
def parseLine (rawLine : List Char) : Option ReqDep :=
  let line := pstrip rawLine
  match line with
  | [] => none
  | c :: _ =>
    if c = '#' then none
    else
      match splitOnOp line with
      | some (before, after) => some ⟨String.mk (pstrip before), String.mk (pstrip after)⟩
      | none => some ⟨String.mk line, "Unknown"⟩

/-- `parse_requirements` (main.py lines 38–56): split the manifest into
lines and keep, in order, every non-blank non-comment line as a
`(name, version)` pair. -/
def parse_requirements (requirements : String) : List ReqDep :=
  (splitlinesAux requirements.toList []).filterMap parseLine

/-! ## Oracle client and TTL cache (`fetch_vulnerabilities`, main.py lines 59–94) -/

/-- The cache time-to-live: `ttl=86400` seconds (24 hours). -/
def TTL : Nat := 86400

/-- The outcome of one outbound `httpx` POST to the oracle: either a
response carrying a status code and the optional `vulns` field of its
JSON body, or a network-level failure (`httpx.RequestError`). -/
inductive OracleOutcome
  | response (status : Nat) (vulns : Option (List Vuln))
  | networkError
deriving DecidableEq

/-- Whether an outcome is a success response (HTTP 200). -/
def OracleOutcome.isSuccess : OracleOutcome → Bool
  | .response status _ => decide (status = 200)
  | .networkError => false

/-- `key in cache` / `cache[key]` on the `TTLCache`: the stored value when
an entry with this key exists and has not yet expired. -/
def cacheLookup : List CacheEntry → DepKey → Nat → Option (List Vuln)
  | [], _, _ => none
  | e :: rest, k, now =>
    if e.key = k then (if now < e.expiry then some e.value else none)
    else cacheLookup rest k now

/-- `cache[key] = vulns` on the `TTLCache`: expired entries and any old
entry under this key are pruned, and the new entry is appended with a
fresh absolute expiry `now + 86400`. -/
def cacheSet (c : List CacheEntry) (k : DepKey) (vs : List Vuln) (now : Nat) :
    List CacheEntry :=
  (c.filter (fun e => decide (e.key ≠ k) && decide (now < e.expiry))) ++ [⟨k, vs, now + TTL⟩]

/-- `fetch_vulnerabilities` (main.py lines 59–94): serve from the cache
when the key is present and fresh; otherwise consult the oracle. Only on
a 200 response are the cache (fresh 24-hour expiry) and the Dependency
Registry written; a non-200 status or a network error returns the empty
list and leaves all state untouched. `outcome` is the behaviour the
oracle would exhibit if consulted by this call. -/
def fetch_vulnerabilities (name version : String) (now : Nat) (outcome : OracleOutcome)
    (st : St) : List Vuln × St :=
  let key : DepKey := (name, version)
  match cacheLookup st.cache key now with
  | some vulns => (vulns, st)
  | none =>
    match outcome with
    | .response status body =>
      if status = 200 then
        let vulns := body.getD []
        (vulns,
         { st with
            cache := cacheSet st.cache key vulns now,
            all_dependencies := ainsert st.all_dependencies key ⟨name, version, vulns⟩ })
      else ([], st)
    | .networkError => ([], st)

/-- Instrumentation of the control flow of `fetch_vulnerabilities`: the
oracle is consulted exactly when the cache lookup misses. -/
def oracle_consulted (st : St) (name version : String) (now : Nat) : Bool :=
  (cacheLookup st.cache (name, version) now).isNone

/-! ## `is_dep_vulnerable` (main.py lines 97–108) -/

/-- `is_dep_vulnerable`: raw dict indexing `all_dependencies[(name, version)]`;
`none` embeds the uncaught `KeyError` raised when the key is absent. -/
def is_dep_vulnerable (st : St) (name version : String) : Option Bool :=
  match alookup st.all_dependencies (name, version) with
  | some record => some (decide (0 < record.vulnerabilities.length))
  | none => none

/-! ## Application registration (`create_application`, main.py lines 111–142) -/

/-- The response model returned by `create_application` and
`get_applications`. -/
structure ApplicationResponse where
  app_id : String
  name : String
  description : String
  has_vulnerabilities : Bool
deriving DecidableEq

/-- The per-dependency resolution loop of `create_application` (lines
130–132): resolve each parsed dependency in manifest order, threading the
state, and snapshot `{'name', 'version', 'vulnerabilities'}` for the
application. `oracle i` is the outcome the oracle would produce for the
`i`-th resolution of this registration, were it consulted. -/
def resolveDeps (oracle : Nat → OracleOutcome) (now : Nat) :
    List ReqDep → Nat → St → List DepRecord × St
  | [], _, st => ([], st)
  | d :: rest, i, st =>
    let r := fetch_vulnerabilities d.name d.version now (oracle i) st
    let rs := resolveDeps oracle now rest (i + 1) r.2
    (⟨d.name, d.version, r.1⟩ :: rs.1, rs.2)

/-- `create_application` (main.py lines 111–142): parse the manifest,
resolve every dependency in order, store the application under the fresh
identifier `app_id` (the generated `uuid4`), and return the summary with
`has_vulnerabilities` derived from the resolved snapshots. -/
def create_application (app_id name description requirements : String)
    (oracle : Nat → OracleOutcome) (now : Nat) (st : St) : ApplicationResponse × St :=
  let deps := parse_requirements requirements
  let r := resolveDeps oracle now deps 0 st
  let st' := { r.2 with
    applications := ainsert r.2.applications app_id ⟨app_id, name, description, r.1⟩ }
  (⟨app_id, name, description,
    r.1.any (fun d => decide (0 < d.vulnerabilities.length))⟩, st')

/-! ## Read-side endpoints (main.py lines 145–219) -/

/-- The two client-visible exceptional outcomes of the read endpoints:
`HTTPException(404)` and the uncaught `KeyError` from `is_dep_vulnerable`. -/
inductive ApiError
  | notFound
  | keyError
deriving DecidableEq

deriving instance DecidableEq for Except

/-- The `Dependency` response model. -/
structure DependencyView where
  name : String
  version : String
  vulnerabilities : List Vuln
  vulnerable : Bool
deriving DecidableEq

/-- The `DependencyDetail` response model (`Dependency` plus `used_in`). -/
structure DependencyDetail where
  name : String
  version : String
  vulnerabilities : List Vuln
  vulnerable : Bool
  used_in : List String
deriving DecidableEq

/-- `get_applications` (main.py lines 145–158): one summary per stored
application, the flag derived from the stored dependency snapshots. -/
def get_applications (st : St) : List ApplicationResponse :=
  st.applications.map (fun ka =>
    ⟨ka.2.id, ka.2.name, ka.2.description,
     ka.2.dependencies.any (fun d => decide (0 < d.vulnerabilities.length))⟩)

/-- The list comprehension of `get_app_dependencies` (lines 175–178),
evaluated left to right: the first dependency whose key is absent from
`all_dependencies` raises `KeyError` inside `is_dep_vulnerable`. -/
def viewDeps (st : St) : List DepRecord → Except ApiError (List DependencyView)
  | [] => .ok []
  | d :: rest =>
    match is_dep_vulnerable st d.name d.version with
    | none => .error .keyError
    | some b =>
      match viewDeps st rest with
      | .ok views => .ok (⟨d.name, d.version, d.vulnerabilities, b⟩ :: views)
      | .error e => .error e

/-- `get_app_dependencies` (main.py lines 161–178): 404 when the
application identifier is unknown, else the dependency views with the
`vulnerable` flag re-checked against the current Dependency Registry. -/
def get_app_dependencies (st : St) (app_id : String) :
    Except ApiError (List DependencyView) :=
  match alookup st.applications app_id with
  | none => .error .notFound
  | some appl => viewDeps st appl.dependencies

/-- `get_dependency_details` (main.py lines 195–219): 404 when the
`(name, version)` key is not in the Dependency Registry, else the record
plus the `used_in` list of names of every stored application whose
dependency list references this exact pair. -/
def get_dependency_details (st : St) (name version : String) :
    Except ApiError (List DependencyDetail) :=
  match alookup st.all_dependencies (name, version) with
  | none => .error .notFound
  | some dependency =>
    match is_dep_vulnerable st dependency.name dependency.version with
    | none => .error .keyError
    | some b =>
      .ok [⟨dependency.name, dependency.version, dependency.vulnerabilities, b,
            (st.applications.filter (fun ka =>
              ka.2.dependencies.any (fun d =>
                decide (d.name = dependency.name) && decide (d.version = dependency.version)))).map
              (fun ka => ka.2.name)⟩]

/-! ## Reachable states

The mutating surface of `main.py` is `create_application` (the read
endpoints are pure). Besides registrations, the physical cache contents
can shrink at any time: `TTLCache` prunes expired entries and evicts
oldest-expiring entries once `maxsize=1000` is exceeded. Both only
remove cache entries, which the `evict` step models; the registries are
never deleted from. -/

/-- States reachable from startup by the public operations. The `create`
step quantifies over the oracle behaviour of the registration and over
the generated identifier (fresh by `uuid4` uniqueness); the `evict` step
removes an arbitrary subset of cache entries (TTL expiry pruning and
capacity eviction). -/
inductive Reachable : St → Prop
  | init : Reachable initSt
  | create (app_id name description requirements : String)
      (oracle : Nat → OracleOutcome) (now : Nat) (st : St) :
      Reachable st →
      alookup st.applications app_id = none →
      Reachable (create_application app_id name description requirements oracle now st).2
  | evict (st : St) (keep : CacheEntry → Bool) :
      Reachable st →
      Reachable { st with cache := st.cache.filter keep }

/-- Reachability restricted to executions in which the oracle answers
every consulted call with a 200 response (no network errors, no
non-success statuses). -/
inductive ReachableOk : St → Prop
  | init : ReachableOk initSt
  | create (app_id name description requirements : String)
      (oracle : Nat → OracleOutcome) (now : Nat) (st : St) :
      ReachableOk st →
      alookup st.applications app_id = none →
      (∀ i, (oracle i).isSuccess = true) →
      ReachableOk (create_application app_id name description requirements oracle now st).2
  | evict (st : St) (keep : CacheEntry → Bool) :
      ReachableOk st →
      ReachableOk { st with cache := st.cache.filter keep }

/-! ## Invariants -/

/-- Every key present in the cache is present in the Dependency Registry. -/
def cacheRegInv (st : St) : Bool :=
  st.cache.all (fun e => (alookup st.all_dependencies e.key).isSome)

/-- Every `(name, version)` pair in any stored application's dependency
list is present in the Dependency Registry. -/
def appRegInv (st : St) : Bool :=
  st.applications.all (fun ka =>
    ka.2.dependencies.all (fun d => (alookup st.all_dependencies (d.name, d.version)).isSome))

/-! ## Store lemmas -/

theorem alookup_ainsert_self {α β : Type} [DecidableEq α] (l : List (α × β)) (k : α) (v : β) :
    alookup (ainsert l k v) k = some v := by
  induction l with
  | nil => simp [ainsert, alookup]
  | cons p rest ih =>
    by_cases h : p.1 = k
    · simp [ainsert, h, alookup]
    · simp only [ainsert]
      rw [if_neg h]
      simp [alookup, h, ih]

theorem alookup_ainsert_isSome {α β : Type} [DecidableEq α] (l : List (α × β)) (k k' : α)
    (v : β) (h : (alookup l k').isSome = true) :
    (alookup (ainsert l k v) k').isSome = true := by
  induction l with
  | nil => simp [alookup] at h
  | cons p rest ih =>
    by_cases hk : p.1 = k
    · by_cases hk' : p.1 = k'
      · simp [ainsert, hk, alookup, hk ▸ hk']
      · simp only [alookup, if_neg hk'] at h
        by_cases hkk' : k = k'
        · simp [ainsert, hk, alookup, hkk']
        · simp [ainsert, hk, alookup, hkk', h]
    · simp only [ainsert]
      rw [if_neg hk]
      by_cases hk' : p.1 = k'
      · simp [alookup, hk']
      · simp only [alookup, if_neg hk'] at h ⊢
        exact ih h

theorem mem_ainsert {α β : Type} [DecidableEq α] (l : List (α × β)) (k : α) (v : β)
    (p : α × β) (h : p ∈ ainsert l k v) : p ∈ l ∨ p = (k, v) := by
  induction l with
  | nil => simp [ainsert] at h; simp [h]
  | cons q rest ih =>
    by_cases hk : q.1 = k
    · rw [ainsert, if_pos hk] at h
      rcases List.mem_cons.mp h with h1 | h1
      · right; exact h1
      · left; exact List.mem_cons_of_mem _ h1
    · rw [ainsert, if_neg hk] at h
      rcases List.mem_cons.mp h with h1 | h1
      · left; simp [h1]
      · rcases ih h1 with h2 | h2
        · left; exact List.mem_cons_of_mem _ h2
        · right; exact h2

theorem cacheLookup_some_key_mem (c : List CacheEntry) (k : DepKey) (now : Nat)
    (vs : List Vuln) (h : cacheLookup c k now = some vs) : ∃ e ∈ c, e.key = k := by
  induction c with
  | nil => simp [cacheLookup] at h
  | cons e rest ih =>
    by_cases hk : e.key = k
    · exact ⟨e, List.mem_cons_self e rest, hk⟩
    · rw [cacheLookup, if_neg hk] at h
      rcases ih h with ⟨e', he', hke'⟩
      exact ⟨e', List.mem_cons_of_mem _ he', hke'⟩

theorem cacheLookup_cacheSet_self (c : List CacheEntry) (k : DepKey) (vs : List Vuln)
    (now t : Nat) (ht : t < now + TTL) :
    cacheLookup (cacheSet c k vs now) k t = some vs := by
  rw [cacheSet]
  induction c with
  | nil => simp [cacheLookup, ht]
  | cons e rest ih =>
    by_cases hk : e.key = k
    · simpa [hk] using ih
    · by_cases hex : now < e.expiry
      · simpa [hk, hex, cacheLookup] using ih
      · simpa [hk, hex] using ih

theorem mem_cacheSet (c : List CacheEntry) (k : DepKey) (vs : List Vuln) (now : Nat)
    (e : CacheEntry) (h : e ∈ cacheSet c k vs now) :
    e ∈ c ∨ e = ⟨k, vs, now + TTL⟩ := by
  rw [cacheSet] at h
  rcases List.mem_append.mp h with h1 | h1
  · left; exact List.mem_of_mem_filter h1
  · right; simpa using h1


/-! ## Lemmas about `fetch_vulnerabilities` -/

theorem fetch_hit (n v : String) (t : Nat) (o : OracleOutcome) (st : St) (vs : List Vuln)
    (hc : cacheLookup st.cache (n, v) t = some vs) :
    fetch_vulnerabilities n v t o st = (vs, st) := by
  simp [fetch_vulnerabilities, hc]

theorem fetch_miss_success (n v : String) (t : Nat) (body : Option (List Vuln)) (st : St)
    (hc : cacheLookup st.cache (n, v) t = none) :
    fetch_vulnerabilities n v t (.response 200 body) st =
      (body.getD [],
       { st with
          cache := cacheSet st.cache (n, v) (body.getD []) t,
          all_dependencies := ainsert st.all_dependencies (n, v) ⟨n, v, body.getD []⟩ }) := by
  simp [fetch_vulnerabilities, hc]

theorem fetch_miss_fail (n v : String) (t : Nat) (o : OracleOutcome) (st : St)
    (hc : cacheLookup st.cache (n, v) t = none) (ho : o.isSuccess = false) :
    fetch_vulnerabilities n v t o st = ([], st) := by
  rcases o with ⟨status, body⟩ | _
  · have hs : status ≠ 200 := by simpa [OracleOutcome.isSuccess] using ho
    simp [fetch_vulnerabilities, hc, hs]
  · simp [fetch_vulnerabilities, hc]

theorem isSuccess_response (o : OracleOutcome) (ho : o.isSuccess = true) :
    ∃ body, o = .response 200 body := by
  rcases o with ⟨status, body⟩ | _
  · exact ⟨body, by simpa [OracleOutcome.isSuccess] using ho⟩
  · simp [OracleOutcome.isSuccess] at ho

theorem fetch_apps_eq (n v : String) (t : Nat) (o : OracleOutcome) (st : St) :
    (fetch_vulnerabilities n v t o st).2.applications = st.applications := by
  rcases hc : cacheLookup st.cache (n, v) t with _ | vs
  · rcases ho : o.isSuccess with _ | _
    · rw [fetch_miss_fail n v t o st hc ho]
    · rcases isSuccess_response o ho with ⟨body, rfl⟩
      rw [fetch_miss_success n v t body st hc]
  · rw [fetch_hit n v t o st vs hc]

theorem fetch_reg_mono (n v : String) (t : Nat) (o : OracleOutcome) (st : St) (k : DepKey)
    (h : (alookup st.all_dependencies k).isSome = true) :
    (alookup (fetch_vulnerabilities n v t o st).2.all_dependencies k).isSome = true := by
  rcases hc : cacheLookup st.cache (n, v) t with _ | vs
  · rcases ho : o.isSuccess with _ | _
    · rw [fetch_miss_fail n v t o st hc ho]; exact h
    · rcases isSuccess_response o ho with ⟨body, rfl⟩
      rw [fetch_miss_success n v t body st hc]
      exact alookup_ainsert_isSome _ _ _ _ h
  · rw [fetch_hit n v t o st vs hc]; exact h

theorem fetch_cacheRegInv (n v : String) (t : Nat) (o : OracleOutcome) (st : St)
    (h : cacheRegInv st = true) :
    cacheRegInv (fetch_vulnerabilities n v t o st).2 = true := by
  rw [cacheRegInv, List.all_eq_true] at h
  rcases hc : cacheLookup st.cache (n, v) t with _ | vs
  · rcases ho : o.isSuccess with _ | _
    · rw [fetch_miss_fail n v t o st hc ho, cacheRegInv, List.all_eq_true]
      exact h
    · rcases isSuccess_response o ho with ⟨body, rfl⟩
      rw [fetch_miss_success n v t body st hc, cacheRegInv, List.all_eq_true]
      intro e he
      rcases mem_cacheSet _ _ _ _ _ he with h1 | h1
      · exact alookup_ainsert_isSome _ _ _ _ (h e h1)
      · simp [h1, alookup_ainsert_self]
  · rw [fetch_hit n v t o st vs hc, cacheRegInv, List.all_eq_true]
    exact h

theorem fetch_success_key_in_reg (n v : String) (t : Nat) (o : OracleOutcome) (st : St)
    (hinv : cacheRegInv st = true) (ho : o.isSuccess = true) :
    (alookup (fetch_vulnerabilities n v t o st).2.all_dependencies (n, v)).isSome = true := by
  rcases hc : cacheLookup st.cache (n, v) t with _ | vs
  · rcases isSuccess_response o ho with ⟨body, rfl⟩
    rw [fetch_miss_success n v t body st hc]
    simp [alookup_ainsert_self]
  · rw [fetch_hit n v t o st vs hc]
    rcases cacheLookup_some_key_mem _ _ _ _ hc with ⟨e, he, hke⟩
    rw [cacheRegInv, List.all_eq_true] at hinv
    have := hinv e he
    rw [hke] at this
    exact this

/-! ## Lemmas about `resolveDeps` and `create_application` -/

theorem resolveDeps_apps_eq (oracle : Nat → OracleOutcome) (now : Nat) (deps : List ReqDep)
    (i : Nat) (st : St) :
    (resolveDeps oracle now deps i st).2.applications = st.applications := by
  induction deps generalizing i st with
  | nil => rfl
  | cons d rest ih =>
    rw [resolveDeps]
    rw [ih]
    exact fetch_apps_eq _ _ _ _ _

theorem resolveDeps_reg_mono (oracle : Nat → OracleOutcome) (now : Nat) (deps : List ReqDep)
    (i : Nat) (st : St) (k : DepKey)
    (h : (alookup st.all_dependencies k).isSome = true) :
    (alookup (resolveDeps oracle now deps i st).2.all_dependencies k).isSome = true := by
  induction deps generalizing i st with
  | nil => exact h
  | cons d rest ih =>
    rw [resolveDeps]
    exact ih _ _ (fetch_reg_mono _ _ _ _ _ _ h)

theorem resolveDeps_cacheRegInv (oracle : Nat → OracleOutcome) (now : Nat)
    (deps : List ReqDep) (i : Nat) (st : St) (h : cacheRegInv st = true) :
    cacheRegInv (resolveDeps oracle now deps i st).2 = true := by
  induction deps generalizing i st with
  | nil => exact h
  | cons d rest ih =>
    rw [resolveDeps]
    exact ih _ _ (fetch_cacheRegInv _ _ _ _ _ h)

/-- Under an all-success oracle, every dependency snapshot produced by the
resolution loop names a key present in the final Dependency Registry. -/
theorem resolveDeps_snaps_in_reg (oracle : Nat → OracleOutcome) (now : Nat)
    (deps : List ReqDep) (i : Nat) (st : St) (hinv : cacheRegInv st = true)
    (hok : ∀ j, (oracle j).isSuccess = true) :
    ∀ d ∈ (resolveDeps oracle now deps i st).1,
      (alookup (resolveDeps oracle now deps i st).2.all_dependencies
        (d.name, d.version)).isSome = true := by
  induction deps generalizing i st with
  | nil => intro d hd; simp [resolveDeps] at hd
  | cons q rest ih =>
    intro d hd
    rw [resolveDeps] at hd ⊢
    rcases List.mem_cons.mp hd with h1 | h1
    · subst h1
      exact resolveDeps_reg_mono _ _ _ _ _ _
        (fetch_success_key_in_reg q.name q.version now (oracle i) st hinv (hok i))
    · exact ih _ _ (fetch_cacheRegInv _ _ _ _ _ hinv) d h1

/-- The state after `create_application`, expressed through the
resolution loop. -/
theorem create_application_state (app_id name description requirements : String)
    (oracle : Nat → OracleOutcome) (now : Nat) (st : St) :
    (create_application app_id name description requirements oracle now st).2 =
      { (resolveDeps oracle now (parse_requirements requirements) 0 st).2 with
        applications :=
          ainsert (resolveDeps oracle now (parse_requirements requirements) 0 st).2.applications
            app_id
            ⟨app_id, name, description,
             (resolveDeps oracle now (parse_requirements requirements) 0 st).1⟩ } := rfl

theorem cacheRegInv_app_irrelevant (st : St) (apps : List (String × AppRecord)) :
    cacheRegInv { st with applications := apps } = cacheRegInv st := rfl

theorem appRegInv_cache_irrelevant (st : St) (c : List CacheEntry) :
    appRegInv { st with cache := c } = appRegInv st := rfl

theorem create_cacheRegInv (app_id name description requirements : String)
    (oracle : Nat → OracleOutcome) (now : Nat) (st : St) (hc : cacheRegInv st = true) :
    cacheRegInv (create_application app_id name description requirements oracle now st).2
      = true := by
  rw [create_application_state, cacheRegInv_app_irrelevant]
  exact resolveDeps_cacheRegInv _ _ _ _ _ hc

theorem create_appRegInv (app_id name description requirements : String)
    (oracle : Nat → OracleOutcome) (now : Nat) (st : St)
    (hc : cacheRegInv st = true) (ha : appRegInv st = true)
    (hok : ∀ j, (oracle j).isSuccess = true) :
    appRegInv (create_application app_id name description requirements oracle now st).2
      = true := by
  rw [create_application_state, appRegInv, List.all_eq_true]
  intro ka hka
  rw [List.all_eq_true]
  intro d hd
  rcases mem_ainsert _ _ _ _ hka with hold | hnew
  · rw [resolveDeps_apps_eq] at hold
    rw [appRegInv, List.all_eq_true] at ha
    have := ha ka hold
    rw [List.all_eq_true] at this
    exact resolveDeps_reg_mono _ _ _ _ _ _ (this d hd)
  · subst hnew
    exact resolveDeps_snaps_in_reg _ _ _ _ _ hc hok d hd

theorem evict_cacheRegInv (st : St) (keep : CacheEntry → Bool)
    (hc : cacheRegInv st = true) :
    cacheRegInv { st with cache := st.cache.filter keep } = true := by
  rw [cacheRegInv, List.all_eq_true] at hc ⊢
  intro e he
  exact hc e (List.mem_of_mem_filter he)

/-- Both invariants hold in every state reachable with an all-success
oracle. -/
theorem reachableOk_inv (st : St) (h : ReachableOk st) :
    cacheRegInv st = true ∧ appRegInv st = true := by
  induction h with
  | init => exact ⟨rfl, rfl⟩
  | create app_id name description requirements oracle now st _ _ hok ih =>
    exact ⟨create_cacheRegInv _ _ _ _ _ _ _ ih.1,
           create_appRegInv _ _ _ _ _ _ _ ih.1 ih.2 hok⟩
  | evict st keep _ ih =>
    exact ⟨evict_cacheRegInv _ _ ih.1, by rw [appRegInv_cache_irrelevant]; exact ih.2⟩

/-! ## Claims -/

/-- C5: parsing the manifest text drops the comment and blank lines, splits
on the first version operator, trims names and versions, and defaults a
missing version to `"Unknown"`, in input order. -/
theorem parse_requirements_example :
    parse_requirements "# comment\n\nflask==2.0.1\nrequests\n  django >= 3.2  \n" =
      [⟨"flask", "2.0.1"⟩, ⟨"requests", "Unknown"⟩, ⟨"django", "3.2"⟩] := by decide

/-- C4: when the oracle is consulted (cache miss) and the call suffers a
network-level failure or returns a non-success status, the resolution
returns the empty vulnerability list and the state unchanged — no error
reaches the caller. -/
theorem fetch_fail_open (n v : String) (now status : Nat) (body : Option (List Vuln))
    (st : St) (h : oracle_consulted st n v now = true) (hs : status ≠ 200) :
    fetch_vulnerabilities n v now (.response status body) st = ([], st) ∧
    fetch_vulnerabilities n v now .networkError st = ([], st) := by
  have hc : cacheLookup st.cache (n, v) now = none := by
    simpa [oracle_consulted, Option.isNone_iff_eq_none] using h
  exact ⟨fetch_miss_fail _ _ _ _ _ hc (by simp [OracleOutcome.isSuccess, hs]),
         fetch_miss_fail _ _ _ _ _ hc rfl⟩

theorem fetch_fail_open_witness :
    oracle_consulted initSt "pkg" "1.0" 0 = true ∧ (500 : Nat) ≠ 200 ∧
    fetch_vulnerabilities "pkg" "1.0" 0 (.response 500 none) initSt = ([], initSt) ∧
    fetch_vulnerabilities "pkg" "1.0" 0 .networkError initSt = ([], initSt) :=
  ⟨by decide, by decide,
   (fetch_fail_open "pkg" "1.0" 0 500 none initSt (by decide) (by decide)).1,
   (fetch_fail_open "pkg" "1.0" 0 500 none initSt (by decide) (by decide)).2⟩

/-- C8: looking up an application by an unknown identifier, or dependency
detail for an unregistered `(name, version)` pair, yields exactly the
client-visible not-found error. -/
theorem absent_key_not_found (st : St) (app_id n v : String)
    (h1 : alookup st.applications app_id = none)
    (h2 : alookup st.all_dependencies (n, v) = none) :
    get_app_dependencies st app_id = .error .notFound ∧
    get_dependency_details st n v = .error .notFound := by
  constructor
  · simp [get_app_dependencies, h1]
  · simp [get_dependency_details, h2]

theorem absent_key_not_found_witness :
    alookup initSt.applications "nope" = none ∧
    alookup initSt.all_dependencies ("a", "1") = none ∧
    get_app_dependencies initSt "nope" = .error .notFound ∧
    get_dependency_details initSt "a" "1" = .error .notFound :=
  ⟨rfl, rfl,
   (absent_key_not_found initSt "nope" "a" "1" rfl rfl).1,
   (absent_key_not_found initSt "nope" "a" "1" rfl rfl).2⟩

/-- C1 counterexample: a resolution not served from the cache whose oracle
call fails by network error leaves the state untouched — the empty result
is NOT written into the cache and no DependencyRecord is created. -/
theorem fetch_failure_not_cached_cex :
    oracle_consulted initSt "pkg" "1.0" 0 = true ∧
    fetch_vulnerabilities "pkg" "1.0" 0 .networkError initSt = ([], initSt) ∧
    cacheLookup (fetch_vulnerabilities "pkg" "1.0" 0 .networkError initSt).2.cache
      ("pkg", "1.0") 0 = none ∧
    alookup (fetch_vulnerabilities "pkg" "1.0" 0 .networkError initSt).2.all_dependencies
      ("pkg", "1.0") = none := by decide

/-- C1 (amended): for a resolution not served from the cache, only a
success (HTTP 200) response writes the result into the cache — as an
entry with fresh expiry `now + 86400` — and creates/overwrites the
DependencyRecord; a network error or non-success status writes nothing
and returns the empty list. -/
theorem fetch_cache_registry_update (n v : String) (now : Nat) (st : St)
    (h : oracle_consulted st n v now = true) :
    (∀ body : Option (List Vuln),
      (fetch_vulnerabilities n v now (.response 200 body) st).1 = body.getD [] ∧
      (⟨(n, v), body.getD [], now + TTL⟩ : CacheEntry) ∈
        (fetch_vulnerabilities n v now (.response 200 body) st).2.cache ∧
      cacheLookup (fetch_vulnerabilities n v now (.response 200 body) st).2.cache
        (n, v) now = some (body.getD []) ∧
      alookup (fetch_vulnerabilities n v now (.response 200 body) st).2.all_dependencies
        (n, v) = some ⟨n, v, body.getD []⟩) ∧
    (∀ (status : Nat) (body : Option (List Vuln)), status ≠ 200 →
      fetch_vulnerabilities n v now (.response status body) st = ([], st)) ∧
    fetch_vulnerabilities n v now .networkError st = ([], st) := by
  have hc : cacheLookup st.cache (n, v) now = none := by
    simpa [oracle_consulted, Option.isNone_iff_eq_none] using h
  refine ⟨?_, ?_, fetch_miss_fail _ _ _ _ _ hc rfl⟩
  · intro body
    rw [fetch_miss_success _ _ _ _ _ hc]
    refine ⟨rfl, ?_, ?_, ?_⟩
    · simp [cacheSet]
    · exact cacheLookup_cacheSet_self _ _ _ _ _ (by simp [TTL])
    · exact alookup_ainsert_self _ _ _
  · intro status body hs
    exact fetch_miss_fail _ _ _ _ _ hc (by simp [OracleOutcome.isSuccess, hs])

theorem fetch_cache_registry_update_witness :
    oracle_consulted initSt "pkg" "1.0" 0 = true ∧
    cacheLookup (fetch_vulnerabilities "pkg" "1.0" 0 (.response 200 (some [7])) initSt).2.cache
      ("pkg", "1.0") 0 = some [7] ∧
    alookup (fetch_vulnerabilities "pkg" "1.0" 0 (.response 200 (some [7])) initSt).2.all_dependencies
      ("pkg", "1.0") = some ⟨"pkg", "1.0", [7]⟩ ∧
    fetch_vulnerabilities "pkg" "1.0" 0 .networkError initSt = ([], initSt) :=
  ⟨by decide,
   ((fetch_cache_registry_update "pkg" "1.0" 0 initSt (by decide)).1 (some [7])).2.2.1,
   ((fetch_cache_registry_update "pkg" "1.0" 0 initSt (by decide)).1 (some [7])).2.2.2,
   (fetch_cache_registry_update "pkg" "1.0" 0 initSt (by decide)).2.2⟩

/-- C3 counterexample: when the first resolution's oracle call fails, the
key is not cached, so a second resolution one second later — well within
the 24-hour window — consults the oracle again: two oracle calls, not at
most one. -/
theorem resolve_twice_two_calls_cex :
    oracle_consulted initSt "pkg" "1.0" 0 = true ∧
    fetch_vulnerabilities "pkg" "1.0" 0 .networkError initSt = ([], initSt) ∧
    oracle_consulted (fetch_vulnerabilities "pkg" "1.0" 0 .networkError initSt).2
      "pkg" "1.0" 1 = true := by decide

/-- C3 (amended): if the first resolution consults the oracle and the call
succeeds, then a second resolution of the same `(name, version)` before
that cache entry's 24-hour expiry is a cache hit: it does not consult the
oracle, returns the same vulnerability list, and leaves the whole state
(registry included) unchanged. -/
theorem resolve_idempotent_after_success (n v : String) (t1 t2 : Nat) (st : St)
    (body : Option (List Vuln)) (o2 : OracleOutcome)
    (h : oracle_consulted st n v t1 = true) (ht : t2 < t1 + TTL) :
    oracle_consulted (fetch_vulnerabilities n v t1 (.response 200 body) st).2 n v t2 = false ∧
    fetch_vulnerabilities n v t2 o2 (fetch_vulnerabilities n v t1 (.response 200 body) st).2 =
      ((fetch_vulnerabilities n v t1 (.response 200 body) st).1,
       (fetch_vulnerabilities n v t1 (.response 200 body) st).2) := by
  have hc : cacheLookup st.cache (n, v) t1 = none := by
    simpa [oracle_consulted, Option.isNone_iff_eq_none] using h
  rw [fetch_miss_success _ _ _ _ _ hc]
  have hhit : cacheLookup (cacheSet st.cache (n, v) (body.getD []) t1) (n, v) t2 =
      some (body.getD []) := cacheLookup_cacheSet_self _ _ _ _ _ ht
  constructor
  · simp [oracle_consulted, hhit]
  · exact fetch_hit _ _ _ _ _ _ hhit

theorem resolve_idempotent_after_success_witness :
    oracle_consulted initSt "pkg" "1.0" 0 = true ∧ (1 : Nat) < 0 + TTL ∧
    oracle_consulted (fetch_vulnerabilities "pkg" "1.0" 0 (.response 200 (some [7])) initSt).2
      "pkg" "1.0" 1 = false ∧
    fetch_vulnerabilities "pkg" "1.0" 1 .networkError
        (fetch_vulnerabilities "pkg" "1.0" 0 (.response 200 (some [7])) initSt).2 =
      ((fetch_vulnerabilities "pkg" "1.0" 0 (.response 200 (some [7])) initSt).1,
       (fetch_vulnerabilities "pkg" "1.0" 0 (.response 200 (some [7])) initSt).2) :=
  ⟨by decide, by decide,
   (resolve_idempotent_after_success "pkg" "1.0" 0 1 initSt (some [7]) .networkError
     (by decide) (by decide)).1,
   (resolve_idempotent_after_success "pkg" "1.0" 0 1 initSt (some [7]) .networkError
     (by decide) (by decide)).2⟩

/-- C10: in every reachable state, every key present in the cache is also
present in the Dependency Registry — cache and registry are written
together on success, registry entries are never deleted, and only cache
entries expire or are evicted. -/
theorem cache_subset_registry (st : St) (h : Reachable st) : cacheRegInv st = true := by
  induction h with
  | init => rfl
  | create app_id name description requirements oracle now st _ _ ih =>
    exact create_cacheRegInv _ _ _ _ _ _ _ ih
  | evict st keep _ ih => exact evict_cacheRegInv _ _ ih

theorem cache_subset_registry_witness :
    cacheRegInv (create_application "id0" "app1" "d" "pkg==1.0"
      (fun _ => .response 200 (some [7])) 0 initSt).2 = true :=
  cache_subset_registry _
    (Reachable.create "id0" "app1" "d" "pkg==1.0"
      (fun _ => .response 200 (some [7])) 0 initSt Reachable.init (by decide))

/-- C2 counterexample: a registration whose oracle call fails by network
error stores the application with its dependency key while writing no
registry entry, reaching a state where an application references a key
absent from the Dependency Registry. -/
theorem app_references_unknown_dep_cex :
    Reachable (create_application "id0" "app1" "d" "pkg==1.0"
      (fun _ => .networkError) 0 initSt).2 ∧
    appRegInv (create_application "id0" "app1" "d" "pkg==1.0"
      (fun _ => .networkError) 0 initSt).2 = false :=
  ⟨Reachable.create "id0" "app1" "d" "pkg==1.0" (fun _ => .networkError) 0 initSt
     Reachable.init (by decide),
   by decide⟩

/-- C2 (amended): in every state reachable by the public operations in
which every oracle call is answered with a success (HTTP 200) response,
every DependencyKey present in any stored application's dependency list
is also present in the Dependency Registry. -/
theorem app_registry_invariant_ok (st : St) (h : ReachableOk st) : appRegInv st = true :=
  (reachableOk_inv st h).2

theorem app_registry_invariant_ok_witness :
    appRegInv (create_application "id0" "app1" "d" "pkg==1.0"
      (fun _ => .response 200 (some [7])) 0 initSt).2 = true :=
  app_registry_invariant_ok _
    (ReachableOk.create "id0" "app1" "d" "pkg==1.0"
      (fun _ => .response 200 (some [7])) 0 initSt ReachableOk.init (by decide)
      (fun _ => rfl))

/-- Helper for C9: the dependency-view comprehension errors with the
uncaught `KeyError` as soon as some listed dependency's key is absent
from the Dependency Registry. -/
theorem viewDeps_keyError (st : St) (deps : List DepRecord)
    (h : ∃ d ∈ deps, alookup st.all_dependencies (d.name, d.version) = none) :
    viewDeps st deps = .error .keyError := by
  induction deps with
  | nil => simp at h
  | cons d rest ih =>
    rcases h with ⟨q, hq, hnone⟩
    rcases List.mem_cons.mp hq with rfl | hq'
    · simp [viewDeps, is_dep_vulnerable, hnone]
    · rw [viewDeps]
      rcases hv : is_dep_vulnerable st d.name d.version with _ | b
      · rfl
      · rw [ih ⟨q, hq', hnone⟩]

/-- C9: if a stored application's dependency list names a key absent from
the Dependency Registry (as a failed oracle call during registration
produces), listing that application's dependencies surfaces the uncaught
`KeyError` from `is_dep_vulnerable` — neither a result nor not-found. -/
theorem missing_registry_key_keyerror (st : St) (app_id : String) (a : AppRecord)
    (h1 : alookup st.applications app_id = some a)
    (h2 : ∃ d ∈ a.dependencies, alookup st.all_dependencies (d.name, d.version) = none) :
    get_app_dependencies st app_id = .error .keyError := by
  rw [get_app_dependencies]
  rw [h1]
  exact viewDeps_keyError _ _ h2

theorem missing_registry_key_keyerror_witness :
    alookup (create_application "id0" "app1" "d" "pkg==1.0"
      (fun _ => .networkError) 0 initSt).2.applications "id0" =
      some ⟨"id0", "app1", "d", [⟨"pkg", "1.0", []⟩]⟩ ∧
    get_app_dependencies (create_application "id0" "app1" "d" "pkg==1.0"
      (fun _ => .networkError) 0 initSt).2 "id0" = .error .keyError :=
  ⟨by decide,
   missing_registry_key_keyerror _ "id0" ⟨"id0", "app1", "d", [⟨"pkg", "1.0", []⟩]⟩
     (by decide) (by decide)⟩

/-- Helper: the aggregation `any(len(d['vulnerabilities']) > 0 ...)` is
true exactly when some listed dependency has a non-empty vulnerability
list. -/
theorem any_vuln_iff (deps : List DepRecord) :
    deps.any (fun d => decide (0 < d.vulnerabilities.length)) = true ↔
      ∃ d ∈ deps, d.vulnerabilities ≠ [] := by
  rw [List.any_eq_true]
  constructor
  · rintro ⟨d, hd, hp⟩
    refine ⟨d, hd, ?_⟩
    have := of_decide_eq_true hp
    exact List.ne_nil_of_length_pos this
  · rintro ⟨d, hd, hne⟩
    exact ⟨d, hd, decide_eq_true (List.length_pos.mpr hne)⟩

/-- C6: both at registration time and in the application listing,
`has_vulnerabilities` is true iff at least one dependency in the
application's stored dependency list has a non-empty vulnerability list. -/
theorem has_vulnerabilities_iff (st : St)
    (app_id name description requirements : String) (oracle : Nat → OracleOutcome)
    (now i : Nat) (hi : i < st.applications.length)
    (hi2 : i < (get_applications st).length) (a : AppRecord)
    (ha : alookup (create_application app_id name description requirements oracle now
      st).2.applications app_id = some a) :
    ((get_applications st)[i].has_vulnerabilities = true ↔
      ∃ d ∈ st.applications[i].2.dependencies, d.vulnerabilities ≠ []) ∧
    ((create_application app_id name description requirements oracle now
        st).1.has_vulnerabilities = true ↔
      ∃ d ∈ a.dependencies, d.vulnerabilities ≠ []) := by
  constructor
  · have hmap : (get_applications st)[i] =
        (fun ka : String × AppRecord =>
          (⟨ka.2.id, ka.2.name, ka.2.description,
            ka.2.dependencies.any (fun d => decide (0 < d.vulnerabilities.length))⟩ :
            ApplicationResponse)) st.applications[i] := by
      simp [get_applications]
    rw [hmap]
    exact any_vuln_iff _
  · have hstate := create_application_state app_id name description requirements oracle now st
    have ha' : a = ⟨app_id, name, description,
        (resolveDeps oracle now (parse_requirements requirements) 0 st).1⟩ := by
      rw [hstate] at ha
      have := alookup_ainsert_self
        (resolveDeps oracle now (parse_requirements requirements) 0 st).2.applications
        app_id
        (⟨app_id, name, description,
          (resolveDeps oracle now (parse_requirements requirements) 0 st).1⟩ : AppRecord)
      rw [this] at ha
      exact (Option.some_inj.mp ha).symm
    rw [ha']
    exact any_vuln_iff _

theorem has_vulnerabilities_iff_witness :
    (1 : Nat) < 2 ∧
    (((get_applications
        ⟨[("i1", ⟨"i1", "a1", "d1", [⟨"p", "1", []⟩]⟩),
          ("i2", ⟨"i2", "a2", "d2", [⟨"q", "2", [5]⟩]⟩)], [], []⟩)[1].has_vulnerabilities
        = true ↔
      ∃ d ∈ [(⟨"q", "2", [5]⟩ : DepRecord)], d.vulnerabilities ≠ []) ∧
    ((create_application "id9" "app9" "d9" "pkg==1.0" (fun _ => .response 200 (some [7])) 0
        ⟨[("i1", ⟨"i1", "a1", "d1", [⟨"p", "1", []⟩]⟩),
          ("i2", ⟨"i2", "a2", "d2", [⟨"q", "2", [5]⟩]⟩)], [], []⟩).1.has_vulnerabilities
        = true ↔
      ∃ d ∈ [(⟨"pkg", "1.0", [7]⟩ : DepRecord)], d.vulnerabilities ≠ [])) :=
  ⟨by decide,
   has_vulnerabilities_iff
     ⟨[("i1", ⟨"i1", "a1", "d1", [⟨"p", "1", []⟩]⟩),
       ("i2", ⟨"i2", "a2", "d2", [⟨"q", "2", [5]⟩]⟩)], [], []⟩
     "id9" "app9" "d9" "pkg==1.0" (fun _ => .response 200 (some [7])) 0 1
     (by decide) (by decide) ⟨"id9", "app9", "d9", [⟨"pkg", "1.0", [7]⟩]⟩ (by decide)⟩

/-- C7: for a registered dependency, the detail view's `used_in` contains
a name exactly when some stored application with that name has this exact
`(name, version)` pair in its dependency list. -/
theorem used_in_exact (st : St) (n v : String) (dep : DepRecord)
    (h : alookup st.all_dependencies (n, v) = some dep)
    (hn : dep.name = n) (hv : dep.version = v) :
    ∃ d, get_dependency_details st n v = .ok [d] ∧
      ∀ x, x ∈ d.used_in ↔
        ∃ ka ∈ st.applications, ka.2.name = x ∧
          ∃ q ∈ ka.2.dependencies, q.name = n ∧ q.version = v := by
  have hvuln : is_dep_vulnerable st dep.name dep.version =
      some (decide (0 < dep.vulnerabilities.length)) := by
    rw [is_dep_vulnerable, hn, hv, h]
  refine ⟨⟨dep.name, dep.version, dep.vulnerabilities,
          decide (0 < dep.vulnerabilities.length),
          (st.applications.filter (fun ka =>
            ka.2.dependencies.any (fun d =>
              decide (d.name = dep.name) && decide (d.version = dep.version)))).map
            (fun ka => ka.2.name)⟩, ?_, ?_⟩
  · simp [get_dependency_details, h, hvuln]
  · intro x
    simp only [List.mem_map, List.mem_filter]
    constructor
    · rintro ⟨ka, ⟨hka, hany⟩, hname⟩
      rw [List.any_eq_true] at hany
      rcases hany with ⟨q, hq, hpq⟩
      rw [Bool.and_eq_true] at hpq
      rcases hpq with ⟨hq1, hq2⟩
      exact ⟨ka, hka, hname, q, hq,
        hn ▸ of_decide_eq_true hq1, hv ▸ of_decide_eq_true hq2⟩
    · rintro ⟨ka, hka, hname, q, hq, hq1, hq2⟩
      refine ⟨ka, ⟨hka, ?_⟩, hname⟩
      rw [List.any_eq_true]
      exact ⟨q, hq, by simp [hn, hv, hq1, hq2]⟩

theorem used_in_exact_witness :
    alookup (⟨[("iA", ⟨"iA", "A", "dA", [⟨"pkg", "1.0", [7]⟩]⟩),
               ("iB", ⟨"iB", "B", "dB", [⟨"pkg", "1.0", [7]⟩, ⟨"other", "2", []⟩]⟩),
               ("iC", ⟨"iC", "C", "dC", [⟨"other", "2", []⟩]⟩)],
              [(("pkg", "1.0"), ⟨"pkg", "1.0", [7]⟩), (("other", "2"), ⟨"other", "2", []⟩)],
              []⟩ : St).all_dependencies ("pkg", "1.0") = some ⟨"pkg", "1.0", [7]⟩ ∧
    ∃ d, get_dependency_details
        (⟨[("iA", ⟨"iA", "A", "dA", [⟨"pkg", "1.0", [7]⟩]⟩),
           ("iB", ⟨"iB", "B", "dB", [⟨"pkg", "1.0", [7]⟩, ⟨"other", "2", []⟩]⟩),
           ("iC", ⟨"iC", "C", "dC", [⟨"other", "2", []⟩]⟩)],
          [(("pkg", "1.0"), ⟨"pkg", "1.0", [7]⟩), (("other", "2"), ⟨"other", "2", []⟩)],
          []⟩ : St) "pkg" "1.0" = .ok [d] ∧
      ∀ x, x ∈ d.used_in ↔
        ∃ ka ∈ (⟨[("iA", ⟨"iA", "A", "dA", [⟨"pkg", "1.0", [7]⟩]⟩),
                  ("iB", ⟨"iB", "B", "dB", [⟨"pkg", "1.0", [7]⟩, ⟨"other", "2", []⟩]⟩),
                  ("iC", ⟨"iC", "C", "dC", [⟨"other", "2", []⟩]⟩)],
                 [(("pkg", "1.0"), ⟨"pkg", "1.0", [7]⟩), (("other", "2"), ⟨"other", "2", []⟩)],
                 []⟩ : St).applications, ka.2.name = x ∧
          ∃ q ∈ ka.2.dependencies, q.name = "pkg" ∧ q.version = "1.0" :=
  ⟨by decide,
   used_in_exact _ "pkg" "1.0" ⟨"pkg", "1.0", [7]⟩ (by decide) rfl rfl⟩
